import Mathlib

/-!
Verification of the SNOWFLAKE_LLMOps quickstart pipeline
(`src/snowflake_llmops_quickstart.ipynb`): a RAG pipeline built from a
Cortex Search retriever adapter, a Cortex Complete generator adapter,
TruLens instrumentation, feedback evaluation and a context-filter
guardrail. Pure pipeline logic is embedded shallowly; the external
collaborators (the search service and the completion endpoint) are
function parameters; TruLens library mechanisms that the notebook only
calls (the `@instrument` recorder, `context_filter`, feedback
evaluation, the recording loop semantics) are modelled from the spec
and marked as such in their doc comments.
-/

namespace SnowLLMOps

/-- One result row of the Cortex Search collaborator: the notebook
selects the single column `doc_text` (`columns=["doc_text"]`). -/
structure SearchResult where
  doc_text : String
deriving DecidableEq

/-- `CortexSearchRetriever` (notebook cell "Call the Cortex Search
Service"): holds the retrieval limit and, as injected collaborator, the
search service `search(query, limit) -> ordered results`. -/
structure CortexSearchRetriever where
  limit_to_retrieve : Nat := 4
  search : String → Nat → List SearchResult

/-- `CortexSearchRetriever.retrieve`: calls the search service with the
query and the configured limit; `if resp.results: return
[curr["doc_text"] for curr in resp.results] else: return []`. Python
truthiness of a list is nonemptiness. -/
def CortexSearchRetriever.retrieve (r : CortexSearchRetriever) (query : String) :
    List String :=
  let results := r.search query r.limit_to_retrieve
  if results.isEmpty then [] else results.map (fun curr => curr.doc_text)

/-- Python single quote, used when rendering a list of strings the way
an f-string interpolates `{context_str}`. -/
def pyQuote : String := String.mk [Char.ofNat 39]

/-- Rendering of a Python list of strings by `str`, as the f-string
`Context: {context_str}` does in `generate_completion`. -/
def pyListStr (l : List String) : String :=
  "[" ++ String.intercalate ", " (l.map (fun s => pyQuote ++ s ++ pyQuote)) ++ "]"

/-- The prompt built by `RAG_from_scratch.generate_completion`'s
f-string, embedding the context list and the query. -/
def rag_prompt (query : String) (context_str : List String) : String :=
  "\n          You are an expert assistant extracting information from context provided.\n          Answer the question based on the context. Be concise and do not hallucinate.\n          If you don´t have the information just say so.\n          Context: " ++ pyListStr context_str ++ "\n          Question:\n          " ++ query ++ "\n          Answer:\n        "

/-- `RAG_from_scratch` (unguarded pipeline): its retriever adapter plus
the injected completion collaborator `Complete(model, prompt)`. -/
structure RAG_from_scratch where
  retriever : CortexSearchRetriever
  Complete : String → String → String

/-- `RAG_from_scratch.retrieve_context`: `return
self.retriever.retrieve(query)`. -/
def RAG_from_scratch.retrieve_context (rag : RAG_from_scratch) (query : String) :
    List String :=
  rag.retriever.retrieve query

/-- `RAG_from_scratch.generate_completion`: builds the prompt f-string
from the query and the context and calls
`Complete("mistral-large", prompt)`. -/
def RAG_from_scratch.generate_completion (rag : RAG_from_scratch)
    (query : String) (context_str : List String) : String :=
  rag.Complete "mistral-large" (rag_prompt query context_str)

/-- `RAG_from_scratch.query`: `context_str = self.retrieve_context(query);
return self.generate_completion(query, context_str)`. -/
def RAG_from_scratch.query (rag : RAG_from_scratch) (query : String) : String :=
  let context_str := rag.retrieve_context query
  rag.generate_completion query context_str

/-- Modelled from the spec: the TruLens `context_filter` guardrail
(`trulens_eval.guardrails.base`), which is library code not under
`src/`. Per spec §4.3 it scores each passage of the retrieved list
independently with the guardrail evaluator applied to (original query,
single passage) and retains, in their original order, exactly the
passages whose score is ≥ the threshold. -/
def context_filter (evaluator : String → String → ℚ) (threshold : ℚ)
    (query : String) (passages : List String) : List String :=
  passages.filter (fun p => threshold ≤ evaluator query p)

/-- `filtered_RAG_from_scratch` (guardrailed pipeline): retriever,
completion collaborator, and the guardrail evaluator
`f_context_relevance_score` (the external Cortex provider's
`context_relevance`, score-only). -/
structure filtered_RAG_from_scratch where
  retriever : CortexSearchRetriever
  Complete : String → String → String
  context_relevance : String → String → ℚ

/-- `filtered_RAG_from_scratch.retrieve_context`: the body returns
`self.retriever.retrieve(query)`, and the
`@context_filter(f_context_relevance_score, 0.75, keyword_for_prompt="query")`
decorator filters that list at threshold 0.75. -/
def filtered_RAG_from_scratch.retrieve_context (rag : filtered_RAG_from_scratch)
    (query : String) : List String :=
  let results := rag.retriever.retrieve query
  context_filter rag.context_relevance (3 / 4) query results

/-- `filtered_RAG_from_scratch.generate_completion`: the body is
`completion = Complete("mistral-large", query); return completion` —
the bare query is the prompt and `context_str` is never read. -/
def filtered_RAG_from_scratch.generate_completion (rag : filtered_RAG_from_scratch)
    (query : String) (context_str : List String) : String :=
  rag.Complete "mistral-large" query

/-- `filtered_RAG_from_scratch.query`: `context_str =
self.retrieve_context(query=query); completion =
self.generate_completion(query=query, context_str=context_str);
return completion`. -/
def filtered_RAG_from_scratch.query (rag : filtered_RAG_from_scratch)
    (query : String) : String :=
  let context_str := rag.retrieve_context query
  rag.generate_completion query context_str

/-- A value captured by instrumentation: the pipeline's step inputs and
outputs are strings (query, completion) or lists of strings (context). -/
inductive Val where
  | str : String → Val
  | strList : List String → Val
deriving DecidableEq

/-- Modelled from the spec: a CallRecord of the TruLens `@instrument`
recorder (spec §3, §4.1), which is library code not under `src/`: step
name, input bindings, output value, and the ordered list of child
records (sibling order = invocation order). -/
inductive CallRecord where
  | mk : String → List (String × Val) → Val → List CallRecord → CallRecord

def CallRecord.step_name : CallRecord → String
  | .mk n _ _ _ => n

def CallRecord.inputs : CallRecord → List (String × Val)
  | .mk _ i _ _ => i

def CallRecord.output : CallRecord → Val
  | .mk _ _ o _ => o

def CallRecord.children : CallRecord → List CallRecord
  | .mk _ _ _ c => c

/-- Modelled from the spec: finalizing one instrumented step (spec
§4.1) — the recorder captures the step name, the input bindings, the
returned value, and the child records its body produced, in invocation
order. -/
def instrumentCall (name : String) (inputs : List (String × Val)) (output : Val)
    (children : List CallRecord) : CallRecord :=
  .mk name inputs output children

/-- Instrumented `RAG_from_scratch.retrieve_context`: the value it
returns together with its CallRecord (no instrumented sub-steps). -/
def RAG_from_scratch.retrieve_context_run (rag : RAG_from_scratch) (query : String) :
    List String × CallRecord :=
  let context_str := rag.retrieve_context query
  (context_str,
   instrumentCall "retrieve_context" [("query", .str query)] (.strList context_str) [])

/-- Instrumented `RAG_from_scratch.generate_completion`: the completion
together with its CallRecord. -/
def RAG_from_scratch.generate_completion_run (rag : RAG_from_scratch)
    (query : String) (context_str : List String) : String × CallRecord :=
  let completion := rag.generate_completion query context_str
  (completion,
   instrumentCall "generate_completion"
     [("query", .str query), ("context_str", .strList context_str)]
     (.str completion) [])

/-- Instrumented `RAG_from_scratch.query`: the body calls the
instrumented `retrieve_context`, feeds its output to the instrumented
`generate_completion`, and the recorder collects the two child records
in that invocation order under the `query` record. -/
def RAG_from_scratch.query_run (rag : RAG_from_scratch) (query : String) :
    String × CallRecord :=
  let r1 := rag.retrieve_context_run query
  let r2 := rag.generate_completion_run query r1.1
  (r2.1, instrumentCall "query" [("query", .str query)] (.str r2.1) [r1.2, r2.2])

/-- Outputs of every call named `name` in the record tree, in tree
order: the tree-walk behind the selector
`Select.RecordCalls.<name>.rets` (spec §4.4, design note on selector
variants). -/
def collectOutputsByName (name : String) : CallRecord → List Val
  | .mk n _ o children =>
    (if n = name then [o] else []) ++
      (children.attach.map (fun c => collectOutputsByName name c.1)).flatten
termination_by r => sizeOf r
decreasing_by
  simp_wf
  have h := List.sizeOf_lt_of_mem c.2
  omega

/-- The strings selected by `rets[:]` from one captured output value: a
list output contributes each of its elements. -/
def Val.retsElems : Val → List String
  | .str s => [s]
  | .strList l => l

/-- Modelled from the spec: evaluation of the `f_context_relevance`
FeedbackSpec (notebook cell "Feedback Functions";
`.on_input().on(Select.RecordCalls.retrieve_context.rets[:]).aggregate(np.mean)`),
whose evaluation engine is TruLens library code not under `src/`: take
the root call's input `query`, collect every element of every
`retrieve_context` output in the tree, score each (query, passage) pair
with the provider's `context_relevance`, aggregate by mean; a selection
that matches nothing fails (`none`, the `SelectionNotFound` kind of
spec §4.4) instead of defaulting. -/
def f_context_relevance_eval (context_relevance : String → String → ℚ)
    (root : CallRecord) : Option ℚ :=
  match root.inputs.lookup "query" with
  | some (.str q) =>
    let passages := ((collectOutputsByName "retrieve_context" root).map Val.retsElems).flatten
    if passages.isEmpty then none
    else some ((passages.map (fun p => context_relevance q p)).sum / passages.length)
  | _ => none

/-- One entry produced by an instrumented invocation inside a recording
context: a finalized record tree, or an error record when the
invocation raised (spec §4.1: the failure is recorded, then
propagates). -/
inductive RunRecord where
  | success : CallRecord → RunRecord
  | failure : String → RunRecord

def RunRecord.isSuccess : RunRecord → Bool
  | .success _ => true
  | .failure _ => false

/-- Modelled from the spec: the recording loop of the notebook
(`with tru_rag as recording: for prompt in prompts: rag.query(prompt)`)
driving an app whose instrumented `query` either returns a record tree
or raises (spec §4.2 `UpstreamUnavailable`). The loop body has no
exception handling; per spec §4.1 the recorder finalizes the record
with an error marker and re-raises, so a failure aborts the remaining
iterations. -/
def recordingLoop (app : String → Except String CallRecord) :
    List String → List RunRecord
  | [] => []
  | q :: qs =>
    match app q with
    | .ok r => .success r :: recordingLoop app qs
    | .error e => [.failure e]

/-- Modelled from the spec: the per-evaluator leaderboard aggregation
(`tru_session.get_leaderboard()`, TruLens library code not under
`src/`): scores are computed for recorded successful invocations;
failed invocations carry no record tree to select from, so they
contribute no score. -/
def leaderboard_scores (score : CallRecord → ℚ) (out : List RunRecord) : List ℚ :=
  out.filterMap (fun r =>
    match r with
    | .success t => some (score t)
    | .failure _ => none)

/-! ## Concrete instances used as witnesses and counterexamples -/

/-- A guardrailed pipeline whose search collaborator returns nothing and
whose completion collaborator echoes the prompt it receives, exposing
exactly what reaches the generator. -/
def echoFilteredRag : filtered_RAG_from_scratch :=
  ⟨⟨4, fun _ _ => []⟩, fun _ prompt => prompt, fun _ _ => 1⟩

/-- A guardrail evaluator scoring the passage "low" at 0 and every other
passage at 1. -/
def ev0 : String → String → ℚ :=
  fun _ p => if p = "low" then 0 else 1

/-- An instrumented app for which exactly the query "b" raises
`UpstreamUnavailable` and every other query yields a record tree. -/
def appFailB : String → Except String CallRecord :=
  fun q =>
    if q = "b" then .error "UpstreamUnavailable"
    else .ok (instrumentCall "query" [("query", .str q)] (.str "ok") [])

/-! ## Helper lemmas (shared) -/

/-- The retriever adapter is the search collaborator's `doc_text` column,
in the collaborator's order: the empty branch coincides with the map. -/
theorem CortexSearchRetriever.retrieve_eq_map (r : CortexSearchRetriever)
    (q : String) :
    r.retrieve q = (r.search q r.limit_to_retrieve).map (fun curr => curr.doc_text) := by
  unfold CortexSearchRetriever.retrieve
  rcases h : r.search q r.limit_to_retrieve with _ | ⟨a, l⟩ <;> simp

/-- On a prefix of queries that all succeed, the recording loop is the
concatenation of the two runs. -/
theorem recordingLoop_append_ok (app : String → Except String CallRecord)
    (qs1 qs2 : List String) (h1 : ∀ q ∈ qs1, ∃ r, app q = .ok r) :
    recordingLoop app (qs1 ++ qs2) = recordingLoop app qs1 ++ recordingLoop app qs2 := by
  induction qs1 with
  | nil => simp [recordingLoop]
  | cons q qs ih =>
    obtain ⟨r, hr⟩ := h1 q (by simp)
    simp only [List.cons_append, recordingLoop, hr]
    rw [show qs.append qs2 = qs ++ qs2 from rfl, ih (fun p hp => h1 p (by simp [hp]))]

/-- On queries that all succeed, the recording loop yields one success
record per query. -/
theorem recordingLoop_all_ok (app : String → Except String CallRecord)
    (qs : List String) (h1 : ∀ q ∈ qs, ∃ r, app q = .ok r) :
    (recordingLoop app qs).length = qs.length ∧
    ∀ r ∈ recordingLoop app qs, r.isSuccess = true := by
  induction qs with
  | nil => simp [recordingLoop]
  | cons q qs ih =>
    obtain ⟨r, hr⟩ := h1 q (by simp)
    obtain ⟨ihl, ihs⟩ := ih (fun p hp => h1 p (by simp [hp]))
    constructor
    · simp [recordingLoop, hr, ihl]
    · intro x hx
      simp only [recordingLoop, hr, List.mem_cons] at hx
      rcases hx with hx | hx
      · simp [hx, RunRecord.isSuccess]
      · exact ihs x hx

/-! ## Claim theorems -/

/-- C1: the guardrail filter scores each passage independently with the
evaluator at (original query, single passage) and returns exactly the
subsequence of the retrieved list consisting of the passages whose
score is ≥ the threshold, in their original order; in particular it is
a sublist of the input, every retained passage qualifies, the number
retained is the number qualifying, and when no passage qualifies the
result is the empty list rather than a failure. -/
theorem context_filter_exact (ev : String → String → ℚ) (th : ℚ) (q : String)
    (P : List String) :
    (context_filter ev th q P).Sublist P ∧
    (∀ p ∈ context_filter ev th q P, th ≤ ev q p) ∧
    (context_filter ev th q P).length = P.countP (fun p => th ≤ ev q p) ∧
    ((∀ p ∈ P, ev q p < th) → context_filter ev th q P = []) := by
  refine ⟨List.filter_sublist P, ?_, ?_, ?_⟩
  · intro p hp
    have := List.of_mem_filter hp
    simpa using this
  · rw [List.countP_eq_length_filter]
    rfl
  · intro h
    unfold context_filter
    rw [List.filter_eq_nil_iff]
    intro p hp
    simpa using not_le.mpr (h p hp)

/-- C1 witness: at the concrete evaluator `ev0` and threshold 3/4, the
filter keeps the qualifying passages in order, and at an all-low list
the empty-result clause fires. -/
theorem context_filter_exact_witness :
    (context_filter ev0 (3 / 4) "q" ["a", "low", "b"]).Sublist ["a", "low", "b"] ∧
    context_filter ev0 (3 / 4) "q" ["low"] = [] :=
  ⟨(context_filter_exact ev0 (3 / 4) "q" ["a", "low", "b"]).1,
   (context_filter_exact ev0 (3 / 4) "q" ["low"]).2.2.2 (by
     intro p hp
     simp only [List.mem_singleton] at hp
     subst hp
     norm_num [ev0])⟩

/-- C2 (code bug): in the guardrailed pipeline the passages given to
`generate_completion` are NOT an input of the prompt sent for
completion — with an echoing completion collaborator, the prompt the
generator receives at a nonempty context is the bare query, with the
passage absent. -/
theorem filtered_generate_completion_drops_passages :
    echoFilteredRag.generate_completion "How do I launch a streamlit app?"
      ["Streamlit apps are launched with the streamlit run command."] =
      "How do I launch a streamlit app?" := rfl

/-- C5: the passage list the retriever adapter returns is exactly the
`doc_text` field of each search result, in the order the search
collaborator returned them — no reordering, dropping or duplication. -/
theorem retrieve_is_doc_text_in_order (r : CortexSearchRetriever) (q : String) :
    r.retrieve q = (r.search q r.limit_to_retrieve).map (fun curr => curr.doc_text) :=
  CortexSearchRetriever.retrieve_eq_map r q

/-- C6: at threshold 0, if every evaluator score is non-negative the
guardrail filter is the identity. -/
theorem context_filter_zero_threshold (ev : String → String → ℚ) (q : String)
    (P : List String) (h : ∀ p ∈ P, 0 ≤ ev q p) :
    context_filter ev 0 q P = P := by
  unfold context_filter
  rw [List.filter_eq_self]
  intro p hp
  simpa using h p hp

/-- C6 witness: the constant-1/2 evaluator is non-negative on a concrete
list, and the threshold-0 filter keeps it intact. -/
theorem context_filter_zero_threshold_witness :
    context_filter (fun _ _ => (1 : ℚ) / 2) 0 "q" ["a", "b"] = ["a", "b"] :=
  context_filter_zero_threshold (fun _ _ => (1 : ℚ) / 2) "q" ["a", "b"] (by
    intro p hp
    norm_num)

/-- C9: in the guardrail-filtered pipeline the completion is computed
from the query alone — `generate_completion` never reads its
`context_str` parameter, so the answer is the same for any two context
lists. -/
theorem filtered_generate_completion_context_independent
    (rag : filtered_RAG_from_scratch) (q : String) (c1 c2 : List String) :
    rag.generate_completion q c1 = rag.generate_completion q c2 := rfl

/-- C10: in the unguarded pipeline `retrieve_context` is a pure
pass-through of the retriever adapter, whose output is itself the
search collaborator's rows in order — no truncation, deduplication or
reordering is added by the orchestrator layer. -/
theorem retrieve_context_is_passthrough (rag : RAG_from_scratch) (q : String) :
    rag.retrieve_context q = rag.retriever.retrieve q ∧
    rag.retrieve_context q =
      (rag.retriever.search q rag.retriever.limit_to_retrieve).map
        (fun curr => curr.doc_text) :=
  ⟨rfl, CortexSearchRetriever.retrieve_eq_map rag.retriever q⟩

/-- C3: the record tree of an orchestrator `query` run has exactly two
children — the `retrieve_context` record followed by the
`generate_completion` record, in invocation order — and the output of
the first is the `context_str` input binding of the second. -/
theorem query_run_children (rag : RAG_from_scratch) (q : String) :
    ((rag.query_run q).2).children =
      [(rag.retrieve_context_run q).2,
       (rag.generate_completion_run q (rag.retrieve_context_run q).1).2] ∧
    ((rag.retrieve_context_run q).2).step_name = "retrieve_context" ∧
    ((rag.generate_completion_run q (rag.retrieve_context_run q).1).2).step_name =
      "generate_completion" ∧
    ((rag.retrieve_context_run q).2).output = .strList (rag.retrieve_context q) ∧
    ((rag.generate_completion_run q (rag.retrieve_context_run q).1).2).inputs.lookup
      "context_str" = some (.strList (rag.retrieve_context q)) :=
  ⟨rfl, rfl, rfl, rfl, rfl⟩

/-- C4: when the search collaborator returns no passages, the retriever
returns the empty list, the guardrail filter returns the empty list,
the generator is still invoked with the empty context, and `query`
returns the completion string (empty context is a valid state, not an
error). -/
theorem filtered_query_empty_retrieval (rag : filtered_RAG_from_scratch) (q : String)
    (h : rag.retriever.search q rag.retriever.limit_to_retrieve = []) :
    rag.retriever.retrieve q = [] ∧
    rag.retrieve_context q = [] ∧
    rag.query q = rag.generate_completion q (rag.retrieve_context q) ∧
    rag.query q = rag.Complete "mistral-large" q := by
  have h1 : rag.retriever.retrieve q = [] := by
    rw [CortexSearchRetriever.retrieve_eq_map rag.retriever q, h]
    rfl
  have h2 : rag.retrieve_context q = [] := by
    unfold filtered_RAG_from_scratch.retrieve_context
    rw [h1]
    rfl
  exact ⟨h1, h2, rfl, rfl⟩

/-- C4 witness: at the concrete pipeline whose search collaborator
returns nothing, every clause holds at a concrete query. -/
theorem filtered_query_empty_retrieval_witness :
    echoFilteredRag.retriever.retrieve "How do I launch a streamlit app?" = [] ∧
    echoFilteredRag.retrieve_context "How do I launch a streamlit app?" = [] ∧
    echoFilteredRag.query "How do I launch a streamlit app?" =
      echoFilteredRag.generate_completion "How do I launch a streamlit app?"
        (echoFilteredRag.retrieve_context "How do I launch a streamlit app?") ∧
    echoFilteredRag.query "How do I launch a streamlit app?" =
      echoFilteredRag.Complete "mistral-large" "How do I launch a streamlit app?" :=
  filtered_query_empty_retrieval echoFilteredRag "How do I launch a streamlit app?" rfl

/-- C7 counterexample: in the batch ["a", "b", "c"] (N = 3) where
exactly the query "b" raises `UpstreamUnavailable`, the recording loop
of the source yields one successful tree — not N - 1 = 2 — because the
unguarded `for` loop aborts on the propagated exception and "c" never
runs. -/
theorem recordingLoop_aborts_counterexample :
    (recordingLoop appFailB ["a", "b", "c"]).countP RunRecord.isSuccess = 1 ∧
    (recordingLoop appFailB ["a", "b", "c"]).length = 2 ∧
    ¬ ((recordingLoop appFailB ["a", "b", "c"]).countP RunRecord.isSuccess = 3 - 1) :=
  ⟨rfl, rfl, by decide⟩

/-- C7 amended: when the queries before the failing one all succeed and
query `qf` raises, the run is the successful trees for the prefix plus
exactly one error record — the loop aborts and the remaining queries
never run — and the leaderboard aggregates only over the prefix's
successful invocations. -/
theorem recordingLoop_partial_failure (app : String → Except String CallRecord)
    (score : CallRecord → ℚ) (qs1 : List String) (qf e : String) (qs2 : List String)
    (h1 : ∀ q ∈ qs1, ∃ r, app q = .ok r) (h2 : app qf = .error e) :
    recordingLoop app (qs1 ++ qf :: qs2) =
      recordingLoop app qs1 ++ [.failure e] ∧
    (recordingLoop app (qs1 ++ qf :: qs2)).countP RunRecord.isSuccess = qs1.length ∧
    (recordingLoop app (qs1 ++ qf :: qs2)).length = qs1.length + 1 ∧
    (leaderboard_scores score (recordingLoop app (qs1 ++ qf :: qs2))).length =
      qs1.length := by
  obtain ⟨hlen, hsucc⟩ := recordingLoop_all_ok app qs1 h1
  have hsplit : recordingLoop app (qs1 ++ qf :: qs2) =
      recordingLoop app qs1 ++ [.failure e] := by
    rw [recordingLoop_append_ok app qs1 (qf :: qs2) h1]
    simp [recordingLoop, h2]
  have hcount : (recordingLoop app qs1).countP RunRecord.isSuccess = qs1.length := by
    rw [List.countP_eq_length.mpr hsucc, hlen]
  refine ⟨hsplit, ?_, ?_, ?_⟩
  · rw [hsplit, List.countP_append, hcount]
    rfl
  · rw [hsplit, List.length_append, hlen]
    rfl
  · rw [hsplit]
    unfold leaderboard_scores
    rw [List.filterMap_append]
    have hl : ∀ l : List RunRecord, (∀ r ∈ l, r.isSuccess = true) →
        (l.filterMap (fun r =>
          match r with
          | .success t => some (score t)
          | .failure _ => none)).length = l.length := by
      intro l
      induction l with
      | nil => intro _; rfl
      | cons r l ih =>
        intro hall
        have hr := hall r (by simp)
        cases r with
        | success t =>
          simpa using ih (fun x hx => hall x (by simp [hx]))
        | failure e => simp [RunRecord.isSuccess] at hr
    simp [hl (recordingLoop app qs1) hsucc, hlen]

/-- C7 amended witness: at the concrete app failing exactly on "b", with
prefix ["a"] succeeding and ["c"] unreached. -/
theorem recordingLoop_partial_failure_witness :
    recordingLoop appFailB (["a"] ++ "b" :: ["c"]) =
      recordingLoop appFailB ["a"] ++ [.failure "UpstreamUnavailable"] ∧
    (recordingLoop appFailB (["a"] ++ "b" :: ["c"])).countP RunRecord.isSuccess =
      (["a"] : List String).length ∧
    (recordingLoop appFailB (["a"] ++ "b" :: ["c"])).length =
      (["a"] : List String).length + 1 ∧
    (leaderboard_scores (fun _ => 1) (recordingLoop appFailB (["a"] ++ "b" :: ["c"]))).length =
      (["a"] : List String).length :=
  recordingLoop_partial_failure appFailB (fun _ => 1) ["a"] "b" "UpstreamUnavailable" ["c"]
    (by
      intro q hq
      simp only [List.mem_singleton] at hq
      subst hq
      exact ⟨instrumentCall "query" [("query", .str "a")] (.str "ok") [], rfl⟩)
    rfl

/-- C8: evaluating the `f_context_relevance` FeedbackSpec on the same
CallRecord tree twice yields the same FeedbackResult, and the result
depends only on the provider's scoring table and the tree — a pure
function of its inputs. -/
theorem f_context_relevance_eval_pure (cr1 cr2 : String → String → ℚ)
    (root : CallRecord) (h : ∀ q p, cr1 q p = cr2 q p) :
    f_context_relevance_eval cr1 root = f_context_relevance_eval cr1 root ∧
    f_context_relevance_eval cr1 root = f_context_relevance_eval cr2 root := by
  have he : cr1 = cr2 := funext fun q => funext fun p => h q p
  exact ⟨rfl, by rw [he]⟩

/-- A concrete two-child record tree of a `query` run, used to witness
feedback evaluation. -/
def sampleRecord : CallRecord :=
  instrumentCall "query" [("query", .str "q0")] (.str "ans")
    [instrumentCall "retrieve_context" [("query", .str "q0")]
       (.strList ["p1", "p2"]) [],
     instrumentCall "generate_completion"
       [("query", .str "q0"), ("context_str", .strList ["p1", "p2"])]
       (.str "ans") []]

/-- C8 witness: two evaluations at a concrete provider and concrete
record tree coincide. -/
theorem f_context_relevance_eval_pure_witness :
    f_context_relevance_eval (fun _ _ => 1) sampleRecord =
      f_context_relevance_eval (fun _ _ => 1) sampleRecord :=
  (f_context_relevance_eval_pure (fun _ _ => 1) (fun _ _ => 1) sampleRecord
    (fun _ _ => rfl)).1

end SnowLLMOps
